import Mathlib

/-!
Shallow embedding of `carex_app.py`, a two-pipeline scraper:
a collection harvester (`scrape_variants` plus its helpers) and a
stock checker (`scrape_search_results`, `extract_first_product_info`,
`make_search_url`).  Python values appearing in parsed pages are
modelled by the `Json` type, Python dicts by ordered association
lists with insert-or-overwrite update, pandas frames by lists of
such dicts, and raised exceptions by `Except`.
-/

set_option maxRecDepth 4000

/-- A JSON value as produced by Python's `json.loads`: numbers are
modelled as exact rationals. -/
inductive Json where
  | null : Json
  | bool : Bool → Json
  | num : ℚ → Json
  | str : String → Json
  | arr : List Json → Json
  | obj : List (String × Json) → Json

/-- A Python dict with string keys (insertion-ordered association list,
keys unique). -/
abbrev Dict := List (String × Json)

/-- Python dict assignment `d[k] = v`: an existing key keeps its position
and gets the new value, a new key is appended at the end. -/
def dictInsert (d : Dict) (k : String) (v : Json) : Dict :=
  if d.any (fun kv => kv.1 = k) then
    d.map (fun kv => if kv.1 = k then (k, v) else kv)
  else
    d ++ [(k, v)]

/-- Python dict lookup on a unique-key dict (first occurrence). -/
def dictLookup (k : String) (d : Dict) : Option Json :=
  match d with
  | [] => none
  | kv :: rest => if kv.1 = k then some kv.2 else dictLookup k rest

/-- Python `d.get(k, default)`. -/
def dictGetD (d : Dict) (k : String) (dflt : Json) : Json :=
  match dictLookup k d with
  | some v => v
  | none => dflt

/-- Python `dict(pairs)` as built by Python's JSON decoder: on duplicate keys the
last value wins while the first occurrence keeps its position. -/
def dictOfPairs (pairs : List (String × Json)) : Dict :=
  pairs.foldl (fun d kv => dictInsert d kv.1 kv.2) []

/-- Python truthiness of a JSON-decoded value (`if not products:` ...). -/
def pythonFalsy : Json → Bool
  | Json.null => true
  | Json.bool b => !b
  | Json.num q => decide (q = 0)
  | Json.str s => s == ""
  | Json.arr l => l.isEmpty
  | Json.obj l => l.isEmpty

/-- Python `str(...)` on the scalar JSON values reaching the f-string in
`flatten_product_variant` (variant ids are integers in the source data;
composite values never reach it and are rendered as a placeholder). -/
def pyStr : Json → String
  | Json.null => "None"
  | Json.bool b => if b then "True" else "False"
  | Json.str s => s
  | Json.num q => if q.den = 1 then toString q.num else toString q
  | Json.arr _ => "<list>"
  | Json.obj _ => "<dict>"

/-- Left brace character (written via its code point throughout). -/
def lbrace : Char := Char.ofNat 123

/-- Right brace character. -/
def rbrace : Char := Char.ofNat 125

/-- JSON whitespace as skipped by Python's `json` decoder. -/
def skipJsonWs (cs : List Char) : List Char :=
  cs.dropWhile (fun c => c == ' ' || c == '\t' || c == '\n' || c == '\r')

/-- Value of a hexadecimal digit. -/
def hexVal (c : Char) : Option Nat :=
  if c.isDigit then some (c.toNat - 48)
  else if 'a' ≤ c && c ≤ 'f' then some (c.toNat - 87)
  else if 'A' ≤ c && c ≤ 'F' then some (c.toNat - 55)
  else none

/-- Decimal digits to a natural number. -/
def digitsToNat (ds : List Char) : Nat :=
  ds.foldl (fun n c => 10 * n + (c.toNat - 48)) 0

/-- Body of a JSON string literal, after the opening quote (strict mode:
raw control characters are rejected, standard escapes are decoded). -/
def parseStrAux (fuel : Nat) (acc cs : List Char) : Option (String × List Char) :=
  match fuel with
  | 0 => none
  | fuel' + 1 =>
    match cs with
    | [] => none
    | '\\' :: esc =>
      (match esc with
       | '"' :: rest => parseStrAux fuel' ('"' :: acc) rest
       | '\\' :: rest => parseStrAux fuel' ('\\' :: acc) rest
       | '/' :: rest => parseStrAux fuel' ('/' :: acc) rest
       | 'b' :: rest => parseStrAux fuel' (Char.ofNat 8 :: acc) rest
       | 'f' :: rest => parseStrAux fuel' (Char.ofNat 12 :: acc) rest
       | 'n' :: rest => parseStrAux fuel' ('\n' :: acc) rest
       | 'r' :: rest => parseStrAux fuel' ('\r' :: acc) rest
       | 't' :: rest => parseStrAux fuel' ('\t' :: acc) rest
       | 'u' :: h1 :: h2 :: h3 :: h4 :: rest =>
         (match hexVal h1, hexVal h2, hexVal h3, hexVal h4 with
          | some a, some b, some c, some d =>
            parseStrAux fuel' (Char.ofNat (((a * 16 + b) * 16 + c) * 16 + d) :: acc) rest
          | _, _, _, _ => none)
       | _ => none)
    | c :: rest =>
      if c == '"' then some (String.mk acc.reverse, rest)
      else if c.toNat < 32 then none
      else parseStrAux fuel' (c :: acc) rest

/-- Optional exponent part of a JSON number; `some (0, cs)` when absent. -/
def parseExpOpt (cs : List Char) : Option (Int × List Char) :=
  match cs with
  | c :: rest =>
    if c == 'e' || c == 'E' then
      let sr : Int × List Char :=
        match rest with
        | '+' :: r => (1, r)
        | '-' :: r => (-1, r)
        | r => (1, r)
      let ds := sr.2.takeWhile Char.isDigit
      if ds.isEmpty then none
      else some (sr.1 * (digitsToNat ds : Int), sr.2.dropWhile Char.isDigit)
    else some (0, c :: rest)
  | [] => some (0, [])

/-- Exact rational value of a JSON number from its parts. -/
def ratOfParts (neg : Bool) (ip fp : List Char) (e : Int) : ℚ :=
  let mant : ℚ := ((digitsToNat ip * 10 ^ fp.length + digitsToNat fp : ℕ) : ℚ) / (10 : ℚ) ^ fp.length
  let m := if neg then -mant else mant
  if 0 ≤ e then m * (10 : ℚ) ^ e.toNat else m / (10 : ℚ) ^ (-e).toNat

/-- A JSON number (sign, integer part with no leading zero, optional
fraction, optional exponent). -/
def parseNum (cs : List Char) : Option (ℚ × List Char) :=
  let sr : Bool × List Char :=
    match cs with
    | '-' :: rest => (true, rest)
    | _ => (false, cs)
  let ip := sr.2.takeWhile Char.isDigit
  let cs2 := sr.2.dropWhile Char.isDigit
  if ip.isEmpty then none
  else if 1 < ip.length && ip.headD '0' == '0' then none
  else
    match cs2 with
    | '.' :: cs3 =>
      let fp := cs3.takeWhile Char.isDigit
      if fp.isEmpty then none
      else
        match parseExpOpt (cs3.dropWhile Char.isDigit) with
        | some (e, rest) => some (ratOfParts sr.1 ip fp e, rest)
        | none => none
    | _ =>
      match parseExpOpt cs2 with
      | some (e, rest) => some (ratOfParts sr.1 ip [] e, rest)
      | none => none

mutual

/-- A JSON value (recursive descent; `none` models a `JSONDecodeError`).
The `NaN`/`Infinity` extensions of Python's decoder are not modelled:
they do not occur in the pages this program parses. -/
def parseVal (fuel : Nat) (cs : List Char) : Option (Json × List Char) :=
  match fuel with
  | 0 => none
  | fuel' + 1 =>
    match skipJsonWs cs with
    | [] => none
    | c :: rest =>
      if c == lbrace then parseObjBody fuel' rest
      else if c == '[' then parseArrBody fuel' rest
      else if c == '"' then
        match parseStrAux (rest.length + 1) [] rest with
        | some (s, r) => some (Json.str s, r)
        | none => none
      else
        match c :: rest with
        | 'n' :: 'u' :: 'l' :: 'l' :: r => some (Json.null, r)
        | 't' :: 'r' :: 'u' :: 'e' :: r => some (Json.bool true, r)
        | 'f' :: 'a' :: 'l' :: 's' :: 'e' :: r => some (Json.bool false, r)
        | cs' =>
          match parseNum cs' with
          | some (q, r) => some (Json.num q, r)
          | none => none

/-- Array body, after the opening bracket. -/
def parseArrBody (fuel : Nat) (cs : List Char) : Option (Json × List Char) :=
  match fuel with
  | 0 => none
  | fuel' + 1 =>
    match skipJsonWs cs with
    | [] => none
    | c :: rest =>
      if c == ']' then some (Json.arr [], rest)
      else
        match parseVal fuel' (c :: rest) with
        | some (j, r) => parseArrRest fuel' [j] r
        | none => none

/-- Array continuation: a comma and a value, or the closing bracket. -/
def parseArrRest (fuel : Nat) (acc : List Json) (cs : List Char) : Option (Json × List Char) :=
  match fuel with
  | 0 => none
  | fuel' + 1 =>
    match skipJsonWs cs with
    | [] => none
    | c :: rest =>
      if c == ']' then some (Json.arr acc.reverse, rest)
      else if c == ',' then
        match parseVal fuel' rest with
        | some (j, r) => parseArrRest fuel' (j :: acc) r
        | none => none
      else none

/-- One `"key": value` member of an object. -/
def parseMember (fuel : Nat) (cs : List Char) : Option ((String × Json) × List Char) :=
  match fuel with
  | 0 => none
  | fuel' + 1 =>
    match skipJsonWs cs with
    | [] => none
    | c :: rest =>
      if c == '"' then
        match parseStrAux (rest.length + 1) [] rest with
        | some (k, r1) =>
          (match skipJsonWs r1 with
           | c2 :: r2 =>
             if c2 == ':' then
               match parseVal fuel' r2 with
               | some (v, r3) => some ((k, v), r3)
               | none => none
             else none
           | [] => none)
        | none => none
      else none

/-- Object body, after the opening brace. -/
def parseObjBody (fuel : Nat) (cs : List Char) : Option (Json × List Char) :=
  match fuel with
  | 0 => none
  | fuel' + 1 =>
    match skipJsonWs cs with
    | [] => none
    | c :: rest =>
      if c == rbrace then some (Json.obj [], rest)
      else
        match parseMember fuel' (c :: rest) with
        | some (kv, r) => parseObjRest fuel' [kv] r
        | none => none

/-- Object continuation: a comma and a member, or the closing brace. -/
def parseObjRest (fuel : Nat) (acc : List (String × Json)) (cs : List Char) :
    Option (Json × List Char) :=
  match fuel with
  | 0 => none
  | fuel' + 1 =>
    match skipJsonWs cs with
    | [] => none
    | c :: rest =>
      if c == rbrace then some (Json.obj acc.reverse, rest)
      else if c == ',' then
        match parseMember fuel' rest with
        | some (kv, r) => parseObjRest fuel' (kv :: acc) r
        | none => none
      else none

end

/-- Python's `json.loads`: parse one value, allow trailing whitespace only;
`none` models a raised `JSONDecodeError`. -/
def json_loads (s : String) : Option Json :=
  match parseVal (s.toList.length + 1) s.toList with
  | some (j, rest) => if (skipJsonWs rest).isEmpty then some j else none
  | none => none

example : json_loads "null" = some Json.null := rfl
example : json_loads " [1, 2.5, \"a b\", true] " =
    some (Json.arr [Json.num 1, Json.num (5 / 2), Json.str "a b", Json.bool true]) := by
  with_unfolding_all rfl
example : json_loads "\x7b\"a\": 1, \"b\": [\x7b\x7d]\x7d" =
    some (Json.obj [("a", Json.num 1), ("b", Json.arr [Json.obj []])]) := by
  with_unfolding_all rfl
example : json_loads "\x7bnot json\x7d" = none := rfl
example : json_loads "-19.99" = some (Json.num (-(1999 / 100))) := by with_unfolding_all rfl

/-- Python `\s` on the ASCII range (the pages parsed are ASCII). -/
def pyIsSpace (c : Char) : Bool :=
  c == ' ' || c == '\t' || c == '\n' || c == '\r' || c == Char.ofNat 11 || c == Char.ofNat 12

/-- After a candidate closing brace: the pattern tail `;\s*for \(var attr in meta\)`. -/
def metaSuffixOk (cs : List Char) : Bool :=
  match cs with
  | ';' :: rest => "for (var attr in meta)".toList.isPrefixOf (rest.dropWhile pyIsSpace)
  | _ => false

/-- Lazy `.*?` up to the first closing brace whose suffix completes the
pattern `var meta = (\x7b.*?\x7d);\s*for \(var attr in meta\)`; returns the
characters of the middle. -/
def findMetaClose (cs : List Char) : Option (List Char) :=
  match cs with
  | [] => none
  | c :: rest =>
    if c == rbrace && metaSuffixOk rest then some []
    else
      match findMetaClose rest with
      | some mid => some (c :: mid)
      | none => none

/-- The literal head of the meta pattern. -/
def metaLit : List Char := "var meta = ".toList

/-- Try the meta pattern anchored at this position; returns group 1. -/
def findMetaAt (cs : List Char) : Option (List Char) :=
  if metaLit.isPrefixOf cs then
    match cs.drop metaLit.length with
    | c :: rest =>
      if c == lbrace then
        match findMetaClose rest with
        | some mid => some (lbrace :: (mid ++ [rbrace]))
        | none => none
      else none
    | [] => none
  else none

/-- Python `re.search` semantics: leftmost position at which the meta pattern
matches, scanning left to right. -/
def findMetaAux (cs : List Char) : Option (List Char) :=
  match cs with
  | [] => none
  | c :: rest =>
    match findMetaAt (c :: rest) with
    | some g => some g
    | none => findMetaAux rest

/-- Group 1 of `re.search(r'var meta = (\x7b.*?\x7d);\s*for \(var attr in meta\)', html, re.DOTALL)`. -/
def findMetaS (html : String) : Option String :=
  (findMetaAux html.toList).map (fun g => String.mk g)

/-- Last-wins lookup, as Python's JSON decoder builds a dict from members. -/
def lookupLast (kvs : List (String × Json)) (k : String) : Option Json :=
  kvs.foldl (fun acc kv => if kv.1 = k then some kv.2 else acc) none

/-- Python `meta_data.get(k, dflt)`.  A non-object is impossible here because the
captured text starts with a brace, so it simply yields the default. -/
def jsonGetD (j : Json) (k : String) (dflt : Json) : Json :=
  match j with
  | Json.obj kvs =>
    (match lookupLast kvs k with
     | some v => v
     | none => dflt)
  | _ => dflt

/-- Source `extract_variants_from_script`: locate the inline meta-script blob; no
match yields `[]`; a match is fed to `json.loads` (whose failure is an
uncaught exception, modelled as `Except.error`), and the `products` entry
is returned with default `[]`. -/
def extract_variants_from_script (html : String) : Except String Json :=
  match findMetaS html with
  | none => Except.ok (Json.arr [])
  | some captured =>
    match json_loads captured with
    | none => Except.error "JSONDecodeError"
    | some meta => Except.ok (jsonGetD meta "products" (Json.arr []))

/-- The literal head of the prefetch-link pattern. -/
def prefetchLit : List Char := "<link rel=\"prefetch\" href=\"".toList

/-- The literal `/products/` of the prefetch-link pattern. -/
def productsLit : List Char := "/products/".toList

/-- Does the quote-free attribute text match `[^\"]+/products/[^\"/]+`
exactly: some `/products/` occurrence with a nonempty head before it and a
nonempty slash-free tail after it. -/
def hrefOk (H : List Char) : Bool :=
  (List.range H.length).any (fun i =>
    i != 0 && productsLit.isPrefixOf (H.drop i) &&
      !(H.drop (i + productsLit.length)).isEmpty &&
      !(H.drop (i + productsLit.length)).contains '/')

/-- Python `re.findall` scan for the prefetch pattern: non-overlapping matches,
left to right, resuming after each match's closing quote. -/
def extractUrlsAux (fuel : Nat) (cs : List Char) : List String :=
  match fuel, cs with
  | 0, _ => []
  | _, [] => []
  | fuel' + 1, c :: rest =>
    if prefetchLit.isPrefixOf (c :: rest) then
      let after := (c :: rest).drop prefetchLit.length
      let H := after.takeWhile (fun ch => ch != '"')
      let after2 := after.drop H.length
      if !after2.isEmpty && hrefOk H then
        String.mk H :: extractUrlsAux fuel' (after2.drop 1)
      else extractUrlsAux fuel' rest
    else extractUrlsAux fuel' rest

/-- Source `extract_product_urls_from_collection_page`:
`re.findall(r'<link rel="prefetch" href="([^"]+/products/[^"/]+)"', html)`. -/
def extract_product_urls_from_collection_page (html : String) : List String :=
  extractUrlsAux html.toList.length html.toList

example : extract_variants_from_script "no meta here" = Except.ok (Json.arr []) := rfl
example : extract_variants_from_script "var meta = \x7bbad\x7d; for (var attr in meta)" =
    Except.error "JSONDecodeError" := rfl
example : extract_variants_from_script
    "var meta = \x7b\"page\": 1\x7d;  for (var attr in meta)" = Except.ok (Json.arr []) := by
  with_unfolding_all rfl
example : extract_variants_from_script
    "var meta = \x7b\"products\": [1]\x7d; for (var attr in meta)" =
    Except.ok (Json.arr [Json.num 1]) := by with_unfolding_all rfl
example : extract_product_urls_from_collection_page
    "<link rel=\"prefetch\" href=\"https://carex.com/products/a\"> <link rel=\"prefetch\" href=\"https://carex.com/x\">" =
    ["https://carex.com/products/a"] := rfl

/-- Python `None`-or-string as stored into a dict slot. -/
def jsonOfOptStr : Option String → Json
  | none => Json.null
  | some s => Json.str s

/-- Python truthiness of `product_url` (a string or `None`). -/
def pyTruthyOptStr : Option String → Bool
  | none => false
  | some s => s != ""

/-- Source `flatten_product_variant(product, variant, product_url)`: product fields
other than `variants` prefixed `product_`, variant fields prefixed
`variant_`, then the `product_url` and derived `variant_url` assignments. -/
def flatten_product_variant (product variant : Dict) (product_url : Option String) : Dict :=
  let d1 := product.foldl
    (fun d kv => if kv.1 = "variants" then d else dictInsert d ("product_" ++ kv.1) kv.2) []
  let d2 := variant.foldl (fun d kv => dictInsert d ("variant_" ++ kv.1) kv.2) d1
  let d3 := dictInsert d2 "product_url" (jsonOfOptStr product_url)
  let vurl : Json :=
    match product_url with
    | some u =>
      if u != "" then Json.str (u ++ "?variant=" ++ pyStr (dictGetD variant "id" Json.null))
      else Json.null
    | none => Json.null
  dictInsert d3 "variant_url" vurl

/-- Python `product.get("variants", [])` (a non-list value would raise further on
in Python and does not occur in these pages). -/
def variantsOf (p : Dict) : List Json :=
  match dictGetD p "variants" (Json.arr []) with
  | Json.arr l => l
  | _ => []

/-- A variant record as a dict (variants are JSON objects in these pages). -/
def variantDict : Json → Dict
  | Json.obj kvs => dictOfPairs kvs
  | _ => []

/-- The inner `for variant in variants` loop of `scrape_variants` for a
single product, with its positionally paired detail URL. -/
def productRows (product : Dict) (product_url : Option String) : List Dict :=
  (variantsOf product).map (fun v => flatten_product_variant product (variantDict v) product_url)

/-- Source `product_urls[i] if i < len(product_urls) else None`. -/
def urlAt (urls : List String) (i : Nat) : Option String :=
  if h : i < urls.length then some (urls.get ⟨i, h⟩) else none

/-- The `for i, product in enumerate(products)` loop of one harvested page. -/
def pageRows (prods : List Dict) (urls : List String) : List Dict :=
  (prods.enum.map (fun ip => productRows ip.2 (urlAt urls ip.1))).flatten

/-- The parsed `products` payload as a list of dicts (each product is a
JSON object; anything else would raise a `TypeError` in Python). -/
def productsAsDicts : Json → Except String (List Dict)
  | Json.arr l =>
    l.mapM (fun p =>
      match p with
      | Json.obj kvs => Except.ok (dictOfPairs kvs)
      | _ => Except.error "TypeError")
  | _ => Except.error "TypeError"

/-- One HTTP response of the collection endpoint. -/
structure FetchRes where
  status : Nat
  text : String

/-- The `while True` harvest loop of `scrape_variants`, over a server model
`fetch : page number → response` with fuel (`none` = fuel exhausted before
a break; the real loop only terminates through its two breaks).  A non-200
status or a falsy `products` breaks with the rows collected so far; an
extraction exception propagates. -/
def scrapeLoop (fetch : Nat → FetchRes) (fuel page : Nat) (acc : List Dict) :
    Option (Except String (List Dict)) :=
  match fuel with
  | 0 => none
  | fuel' + 1 =>
    let res := fetch page
    if res.status ≠ 200 then some (Except.ok acc)
    else
      match extract_variants_from_script res.text with
      | Except.error e => some (Except.error e)
      | Except.ok products =>
        if pythonFalsy products then some (Except.ok acc)
        else
          match productsAsDicts products with
          | Except.error e => some (Except.error e)
          | Except.ok prods =>
            scrapeLoop fetch fuel' (page + 1)
              (acc ++ pageRows prods (extract_product_urls_from_collection_page res.text))

/-- The four output columns kept by `scrape_variants`. -/
def keepColumns : List String :=
  ["variant_name", "variant_sku", "variant_price_usd", "variant_public_title"]

/-- Pandas `pd.DataFrame(rows).columns`: keys in order of first appearance. -/
def dfColumns (rows : List Dict) : List String :=
  rows.foldl (fun cs r => cs ++ (r.map Prod.fst).filter (fun k => !cs.contains k)) []

/-- One row of `df["variant_price_usd"] = df["variant_price"] / 100`:
a numeric price is divided exactly, a missing one yields NaN (`null`). -/
def addUsd (row : Dict) : Dict :=
  match dictLookup "variant_price" row with
  | some (Json.num q) => dictInsert row "variant_price_usd" (Json.num (q / 100))
  | _ => dictInsert row "variant_price_usd" Json.null

/-- A non-numeric present price would make the pandas division raise. -/
def priceTypeOk (row : Dict) : Bool :=
  match dictLookup "variant_price" row with
  | some (Json.num _) => true
  | none => true
  | some _ => false

/-- The written spreadsheet: a header row and data rows. -/
structure Sheet where
  columns : List String
  rows : List (List Json)

/-- The tail of `scrape_variants` after the loop: build the frame, derive
`variant_price_usd` when a `variant_price` column exists, select the four
output columns (`KeyError` when any is absent, as pandas raises), and
write the file. -/
def writeStep (rows : List Dict) : Except String Sheet :=
  if (dfColumns rows).contains "variant_price" then
    if rows.all priceTypeOk then
      let rows2 := rows.map addUsd
      if keepColumns.all (fun c => (dfColumns rows2).contains c) then
        Except.ok ⟨keepColumns, rows2.map (fun r => keepColumns.map (fun c => dictGetD r c Json.null))⟩
      else Except.error "KeyError"
    else Except.error "TypeError"
  else
    if keepColumns.all (fun c => (dfColumns rows).contains c) then
      Except.ok ⟨keepColumns, rows.map (fun r => keepColumns.map (fun c => dictGetD r c Json.null))⟩
    else Except.error "KeyError"

/-- Source `scrape_variants`: run the harvest loop from page 1, then always fall
through to the write step with whatever rows were collected (`Except.error`
models an uncaught exception: nothing is written on that path). -/
def scrape_variants (fetch : Nat → FetchRes) (fuel : Nat) : Option (Except String Sheet) :=
  match scrapeLoop fetch fuel 1 [] with
  | none => none
  | some (Except.error e) => some (Except.error e)
  | some (Except.ok rows) => some (writeStep rows)

/-- A page on which the loop proceeds to the next iteration: status 200,
extraction succeeds, truthy products list of objects; yields the parsed
products and detail URLs. -/
def pageOk (fetch : Nat → FetchRes) (p : Nat) : Option (List Dict × List String) :=
  let res := fetch p
  if res.status ≠ 200 then none
  else
    match extract_variants_from_script res.text with
    | Except.error _ => none
    | Except.ok products =>
      if pythonFalsy products then none
      else
        match productsAsDicts products with
        | Except.error _ => none
        | Except.ok prods => some (prods, extract_product_urls_from_collection_page res.text)

/-- Rows harvested from `n` consecutive good pages starting at `page`. -/
def rowsFrom (fetch : Nat → FetchRes) (page n : Nat) : List Dict :=
  match n with
  | 0 => []
  | n' + 1 =>
    match pageOk fetch page with
    | some pr => pageRows pr.1 pr.2 ++ rowsFrom fetch (page + 1) n'
    | none => []

example :
    flatten_product_variant [("id", Json.num 7), ("variants", Json.arr [])]
      [("id", Json.num 11), ("sku", Json.str "S")] (some "https://carex.com/products/a") =
    [("product_id", Json.num 7), ("variant_id", Json.num 11), ("variant_sku", Json.str "S"),
     ("product_url", Json.str "https://carex.com/products/a"),
     ("variant_url", Json.str "https://carex.com/products/a?variant=11")] := by
  with_unfolding_all rfl

/-- UTF-8 bytes of a character. -/
def utf8Bytes (c : Char) : List Nat :=
  let n := c.toNat
  if n < 128 then [n]
  else if n < 2048 then [192 + n / 64, 128 + n % 64]
  else if n < 65536 then [224 + n / 4096, 128 + n / 64 % 64, 128 + n % 64]
  else [240 + n / 262144, 128 + n / 4096 % 64, 128 + n / 64 % 64, 128 + n % 64]

/-- Uppercase hexadecimal digit. -/
def hexDigitU (n : Nat) : Char :=
  if n < 10 then Char.ofNat (48 + n) else Char.ofNat (55 + n)

/-- Characters `urllib.parse.quote` leaves unescaped (unreserved plus the
default safe character `/`). -/
def quoteSafe (c : Char) : Bool :=
  ('A' ≤ c && c ≤ 'Z') || ('a' ≤ c && c ≤ 'z') || ('0' ≤ c && c ≤ '9') ||
    c == '_' || c == '.' || c == '-' || c == '~' || c == '/'

/-- Python `urllib.parse.quote`: percent-encode every unsafe character's UTF-8
bytes, uppercase hex. -/
def pyQuote (s : String) : String :=
  String.mk (s.toList.flatMap (fun c =>
    if quoteSafe c then [c]
    else (utf8Bytes c).flatMap (fun b => ['%', hexDigitU (b / 16), hexDigitU (b % 16)])))

/-- One input row of the stock checker, as read back from the harvested
spreadsheet: a missing cell is `none` (pandas NaN), fields in sheet order. -/
structure CheckRow where
  variant_name : Option String
  variant_sku : Option String
  deriving DecidableEq, Repr

/-- The search endpoint prefix. -/
def base_search_url : String := "https://carex.com/pages/search-results-page?q="

/-- Source `make_search_url(row)`: the query is the SKU when it is not NaN, else
the name; `None` when the chosen query is itself NaN. -/
def make_search_url (row : CheckRow) : Option String :=
  let query :=
    match row.variant_sku with
    | some s => some s
    | none => row.variant_name
  match query with
  | some q => some (base_search_url ++ pyQuote q)
  | none => none

/-- Behaviour of one navigation attempt of `extract_first_product_info`:
`raise` is an `Exception` (timeout, element not found, invalid URL — caught
by the retry loop), `fatal` a `BaseException` not derived from `Exception`
(e.g. `KeyboardInterrupt`, which `except Exception` does not catch),
`found` a rendered first result with its class attribute and, when the
`snize-view-link` element exists, its `href` attribute. -/
inductive AttemptOutcome where
  | raise : AttemptOutcome
  | fatal : AttemptOutcome
  | found : String → Option (Option String) → AttemptOutcome
  deriving DecidableEq, Repr

/-- Contiguous-sublist test (Python's `in` on strings). -/
def listIsSublist (pat cs : List Char) : Bool :=
  match cs with
  | [] => pat.isEmpty
  | _ :: rest => pat.isPrefixOf cs || listIsSublist pat rest

/-- Stock classification from the first result's class attribute
(Python `in` is a substring test). -/
def stock_status_of (classes : String) : String :=
  if listIsSublist "snize-product-in-stock".toList classes.toList then "In Stock"
  else if listIsSublist "snize-product-out-of-stock".toList classes.toList then "Out of Stock"
  else "Unknown"

/-- The view-link extraction: no link element (inner `except`) or a falsy
href gives `None`-ish results; a relative product path is absolutized. -/
def normalizeView : Option (Option String) → Option String
  | none => none
  | some none => none
  | some (some h) =>
    if h != "" && h.startsWith "/products/" then some ("https://carex.com" ++ h) else some h

/-- The `for attempt in range(retries)` loop of `extract_first_product_info`
(`used` counts attempts begun so far, instrumenting the loop counter): a
caught `Exception` sleeps and retries, exhaustion returns
`(None, "Retry Failed")`, a `BaseException` propagates. -/
def extractAux (attempts : Nat → AttemptOutcome) (used rem : Nat) :
    Except String (Option String × String) × Nat :=
  match rem with
  | 0 => (Except.ok (none, "Retry Failed"), used)
  | rem' + 1 =>
    match attempts used with
    | AttemptOutcome.fatal => (Except.error "BaseException", used + 1)
    | AttemptOutcome.raise => extractAux attempts (used + 1) rem'
    | AttemptOutcome.found classes view =>
      (Except.ok (normalizeView view, stock_status_of classes), used + 1)

/-- Source `extract_first_product_info(driver, search_url, retries=5)`, returning
the result (or propagated non-`Exception` error) and the number of
attempts consumed. -/
def extract_first_product_info (attempts : Nat → AttemptOutcome) (retries : Nat) :
    Except String (Option String × String) × Nat :=
  extractAux attempts 0 retries

/-- Driver lifecycle events of one stock-checker run. -/
inductive Ev where
  | acquire : Ev
  | navigate : Option String → Ev
  | release : Ev
  deriving DecidableEq, Repr

/-- One output row of the stock checker. -/
structure OutRow where
  row : CheckRow
  search_url : Option String
  product_page_url : Option String
  stock_status : String
  deriving DecidableEq, Repr

/-- What `driver.get(search_url)` leads to on attempt `j` of row `i`:
`driver.get(None)` raises an `InvalidArgumentException` (an `Exception`)
before anything else can happen; with a real URL the page behaviour is the
oracle's. -/
def navOutcome (oracle : Nat → Nat → AttemptOutcome) (i : Nat) (url : Option String) (j : Nat) :
    AttemptOutcome :=
  match url with
  | none => AttemptOutcome.raise
  | some _ => oracle i j

/-- The `for idx, row in df_input.iterrows()` loop of
`scrape_search_results`, also producing the trace of navigations. -/
def checkLoop (oracle : Nat → Nat → AttemptOutcome) :
    Nat → List CheckRow → Except String (List OutRow) × List Ev
  | _, [] => (Except.ok [], [])
  | i, row :: rest =>
    let url := make_search_url row
    let r := extract_first_product_info (navOutcome oracle i url) 5
    let navs := List.replicate r.2 (Ev.navigate url)
    match r.1 with
    | Except.error e => (Except.error e, navs)
    | Except.ok pr =>
      match checkLoop oracle (i + 1) rest with
      | (Except.error e, tr) => (Except.error e, navs ++ tr)
      | (Except.ok outs, tr) => (Except.ok (⟨row, url, pr.1, pr.2⟩ :: outs), navs ++ tr)

/-- Source `scrape_search_results`: missing input file returns early with no side
effects; otherwise the driver is acquired, the rows processed in order, and
`driver.quit()` runs only when the loop finishes normally — there is no
`try/finally`, so an error escaping the loop skips the release. -/
def scrape_search_results (fileExists : Bool) (oracle : Nat → Nat → AttemptOutcome)
    (rows : List CheckRow) : Except String (Option (List OutRow)) × List Ev :=
  if fileExists then
    match checkLoop oracle 0 rows with
    | (Except.error e, tr) => (Except.error e, Ev.acquire :: tr)
    | (Except.ok outs, tr) => (Except.ok (some outs), Ev.acquire :: (tr ++ [Ev.release]))
  else (Except.ok none, [])

example : pyQuote "Widget A" = "Widget%20A" := rfl
example : pyQuote "ABC-1" = "ABC-1" := rfl
example : make_search_url ⟨none, some "ABC-1"⟩ =
    some "https://carex.com/pages/search-results-page?q=ABC-1" := rfl
example : stock_status_of "snize-product snize-product-in-stock" = "In Stock" := rfl
example : stock_status_of "snize-product snize-product-out-of-stock" = "Out of Stock" := rfl
example : stock_status_of "snize-product" = "Unknown" := rfl
example : extract_first_product_info (fun _ => AttemptOutcome.raise) 5 =
    (Except.ok (none, "Retry Failed"), 5) := rfl

/-- A collection page whose meta blob holds one product with one variant. -/
def onePgHtml : String :=
  "var meta = \x7b\"products\": [\x7b\"id\": 1, \"variants\": [\x7b\"id\": 2, \"name\": \"V\", \"sku\": \"S\", \"price\": 1999, \"public_title\": \"T\"\x7d]\x7d]\x7d; for (var attr in meta)"

/-- A server whose page 1 is `onePgHtml` and whose page 2 answers 500. -/
def failPage2Fetch : Nat → FetchRes :=
  fun p => if p = 1 then ⟨200, onePgHtml⟩ else ⟨500, ""⟩

/-- A server all of whose pages lack the meta blob: zero parsed products. -/
def emptyCatalogFetch : Nat → FetchRes :=
  fun _ => ⟨200, "<html>no inline meta script</html>"⟩

example : dictInsert [("a", Json.null)] "a" (Json.num 1) = [("a", Json.num 1)] := rfl
example : dictOfPairs [("a", Json.null), ("b", Json.num 2), ("a", Json.num 1)]
    = [("a", Json.num 1), ("b", Json.num 2)] := rfl

/-- The keys of a dict, in order. -/
def rowKeys (d : Dict) : List String := d.map Prod.fst

/-- The row keys contributed by the product record (prefix invariant
statement helper). -/
def productOriginKeys (p : Dict) : List String :=
  (p.filter (fun kv => kv.1 != "variants")).map (fun kv => "product_" ++ kv.1)

/-- The row keys contributed by the variant record. -/
def variantOriginKeys (v : Dict) : List String :=
  v.map (fun kv => "variant_" ++ kv.1)

/-- The two keys added after the prefixed fields. -/
def derivedKeys : List String := ["product_url", "variant_url"]

/-! Section: Helper lemmas: dict update and lookup -/

theorem dictInsert_of_not_mem (d : Dict) (k : String) (v : Json) (h : k ∉ rowKeys d) :
    dictInsert d k v = d ++ [(k, v)] := by
  have hc : ¬ (d.any (fun kv => kv.1 = k) = true) := by
    simp only [List.any_eq_true, decide_eq_true_eq, not_exists, not_and]
    intro kv hkv heq
    exact h (heq ▸ List.mem_map_of_mem Prod.fst hkv)
  simp [dictInsert, hc]

theorem dictLookup_append_of_not_mem (d : Dict) (k : String) (t : Dict) (h : k ∉ rowKeys d) :
    dictLookup k (d ++ t) = dictLookup k t := by
  induction d with
  | nil => rfl
  | cons kv rest ih =>
    simp only [rowKeys, List.map_cons, List.mem_cons] at h
    push_neg at h
    simp only [List.cons_append, dictLookup, if_neg (fun he : kv.1 = k => h.1 he.symm)]
    exact ih (by simpa [rowKeys] using h.2)

theorem dictLookup_map_update_self (d : Dict) (k : String) (v : Json)
    (hany : d.any (fun kv => kv.1 = k) = true) :
    dictLookup k (d.map (fun kv => if kv.1 = k then (k, v) else kv)) = some v := by
  induction d with
  | nil => simp at hany
  | cons kv rest ih =>
    by_cases hk : kv.1 = k
    · simp [dictLookup, hk]
    · simp only [List.any_cons, Bool.or_eq_true, decide_eq_true_eq] at hany
      rcases hany with h1 | h2
      · exact absurd h1 hk
      · simp only [List.map_cons, if_neg hk, dictLookup, if_neg hk]
        exact ih h2

theorem dictLookup_dictInsert_self (d : Dict) (k : String) (v : Json) :
    dictLookup k (dictInsert d k v) = some v := by
  by_cases hany : d.any (fun kv => kv.1 = k) = true
  · rw [show dictInsert d k v = d.map (fun kv => if kv.1 = k then (k, v) else kv) by
      simp [dictInsert, hany]]
    exact dictLookup_map_update_self d k v hany
  · have hnm : k ∉ rowKeys d := by
      intro hm
      apply hany
      simp only [List.any_eq_true, decide_eq_true_eq]
      obtain ⟨kv, hkv, heq⟩ := List.mem_map.mp hm
      exact ⟨kv, hkv, heq⟩
    rw [dictInsert_of_not_mem d k v hnm, dictLookup_append_of_not_mem d k _ hnm]
    simp [dictLookup]

theorem dictLookup_map_update_ne (d : Dict) (k k' : String) (v : Json) (h : k ≠ k') :
    dictLookup k (d.map (fun kv => if kv.1 = k' then (k', v) else kv)) = dictLookup k d := by
  induction d with
  | nil => rfl
  | cons kv rest ih =>
    by_cases hk : kv.1 = k'
    · simp only [List.map_cons, if_pos hk, dictLookup,
        if_neg (fun he : k' = k => h he.symm), if_neg (fun he : kv.1 = k => h (hk ▸ he).symm)]
      exact ih
    · simp only [List.map_cons, if_neg hk, dictLookup]
      by_cases he : kv.1 = k
      · simp [he]
      · simp only [if_neg he]
        exact ih

theorem dictLookup_append_single_ne (d : Dict) (k k' : String) (v : Json) (h : k ≠ k') :
    dictLookup k (d ++ [(k', v)]) = dictLookup k d := by
  induction d with
  | nil => simp [dictLookup, Ne.symm h]
  | cons kv rest ih =>
    by_cases he : kv.1 = k
    · simp [dictLookup, he]
    · simp only [List.cons_append, dictLookup, if_neg he]
      exact ih

theorem dictLookup_dictInsert_ne (d : Dict) (k k' : String) (v : Json) (h : k ≠ k') :
    dictLookup k (dictInsert d k' v) = dictLookup k d := by
  by_cases hany : d.any (fun kv => kv.1 = k') = true
  · rw [show dictInsert d k' v = d.map (fun kv => if kv.1 = k' then (k', v) else kv) by
      simp [dictInsert, hany]]
    exact dictLookup_map_update_ne d k k' v h
  · rw [show dictInsert d k' v = d ++ [(k', v)] by simp [dictInsert, hany]]
    exact dictLookup_append_single_ne d k k' v h

/-! Section: Helper lemmas: key prefixes -/

theorem string_append_right_inj (a s t : String) (h : a ++ s = a ++ t) : s = t := by
  apply String.ext
  have hd := congrArg String.data h
  rw [String.data_append, String.data_append] at hd
  exact List.append_cancel_left hd

theorem product_ne_variant_prefixes (s t : String) : "product_" ++ s ≠ "variant_" ++ t := by
  intro h
  have hd := congrArg String.data h
  rw [String.data_append, String.data_append] at hd
  have h1 : "product_".data = ['p', 'r', 'o', 'd', 'u', 'c', 't', '_'] := rfl
  have h2 : "variant_".data = ['v', 'a', 'r', 'i', 'a', 'n', 't', '_'] := rfl
  rw [h1, h2] at hd
  simp at hd

theorem product_prefix_eq_iff (s t : String) : "product_" ++ s = "product_" ++ t ↔ s = t :=
  ⟨string_append_right_inj _ s t, fun h => h ▸ rfl⟩

theorem variant_prefix_eq_iff (s t : String) : "variant_" ++ s = "variant_" ++ t ↔ s = t :=
  ⟨string_append_right_inj _ s t, fun h => h ▸ rfl⟩

theorem product_url_eq_prefix_iff (s : String) : "product_" ++ s = "product_url" ↔ s = "url" := by
  rw [show ("product_url" : String) = "product_" ++ "url" from rfl]
  exact product_prefix_eq_iff s "url"

theorem variant_url_eq_prefix_iff (s : String) : "variant_" ++ s = "variant_url" ↔ s = "url" := by
  rw [show ("variant_url" : String) = "variant_" ++ "url" from rfl]
  exact variant_prefix_eq_iff s "url"

/-! Section: Helper lemmas: keys of the flattening folds -/

theorem rowKeys_append_single (d : Dict) (k : String) (v : Json) :
    rowKeys (d ++ [(k, v)]) = rowKeys d ++ [k] := by
  simp [rowKeys]

theorem foldl_product_keys (p : List (String × Json)) : ∀ (d : Dict),
    (∀ kv ∈ p, kv.1 ≠ "variants" → ("product_" ++ kv.1) ∉ rowKeys d) →
    (p.map Prod.fst).Nodup →
    rowKeys (p.foldl
      (fun d kv => if kv.1 = "variants" then d else dictInsert d ("product_" ++ kv.1) kv.2) d)
      = rowKeys d ++ productOriginKeys p := by
  induction p with
  | nil =>
    intro d _ _
    simp [productOriginKeys]
  | cons kv rest ih =>
    intro d hfresh hnd
    simp only [List.map_cons, List.nodup_cons] at hnd
    simp only [List.foldl_cons]
    by_cases hv : kv.1 = "variants"
    · rw [if_pos hv,
        ih d (fun kv' h' hne => hfresh kv' (List.mem_cons_of_mem kv h') hne) hnd.2]
      simp [productOriginKeys, List.filter_cons, hv]
    · rw [if_neg hv,
        dictInsert_of_not_mem d _ kv.2 (hfresh kv (List.mem_cons_self kv rest) hv)]
      rw [ih (d ++ [("product_" ++ kv.1, kv.2)]) ?fresh hnd.2, rowKeys_append_single]
      · simp [productOriginKeys, List.filter_cons, hv]
      case fresh =>
        intro kv' h' hne
        rw [rowKeys_append_single]
        simp only [List.mem_append, List.mem_singleton]
        push_neg
        refine ⟨hfresh kv' (List.mem_cons_of_mem kv h') hne, ?_⟩
        rw [Ne, product_prefix_eq_iff]
        intro he
        exact hnd.1 (he ▸ List.mem_map_of_mem Prod.fst h')

theorem foldl_variant_keys (v : List (String × Json)) : ∀ (d : Dict),
    (∀ kv ∈ v, ("variant_" ++ kv.1) ∉ rowKeys d) →
    (v.map Prod.fst).Nodup →
    rowKeys (v.foldl (fun d kv => dictInsert d ("variant_" ++ kv.1) kv.2) d)
      = rowKeys d ++ variantOriginKeys v := by
  induction v with
  | nil =>
    intro d _ _
    simp [variantOriginKeys]
  | cons kv rest ih =>
    intro d hfresh hnd
    simp only [List.map_cons, List.nodup_cons] at hnd
    simp only [List.foldl_cons]
    rw [dictInsert_of_not_mem d _ kv.2 (hfresh kv (List.mem_cons_self kv rest))]
    rw [ih (d ++ [("variant_" ++ kv.1, kv.2)]) ?fresh hnd.2, rowKeys_append_single]
    · simp [variantOriginKeys]
    case fresh =>
      intro kv' h'
      rw [rowKeys_append_single]
      simp only [List.mem_append, List.mem_singleton]
      push_neg
      refine ⟨hfresh kv' (List.mem_cons_of_mem kv h'), ?_⟩
      rw [Ne, variant_prefix_eq_iff]
      intro he
      exact hnd.1 (he ▸ List.mem_map_of_mem Prod.fst h')

/-! Section: Claim C2 -/

/-- C2 counterexample: a product field named `url` is prefixed to
`product_url`, which is exactly the derived key — the later
`flat_data["product_url"] = product_url` assignment overwrites the
product-origin value (`"orig"` is lost, the row carries `"detail"`),
so prefixing does not guarantee key uniqueness for any field name. -/
theorem flatten_url_collision_cex :
    "product_url" ∈ productOriginKeys [("url", Json.str "orig")] ∧
    "product_url" ∈ derivedKeys ∧
    dictLookup "product_url"
      (flatten_product_variant [("url", Json.str "orig")] [] (some "detail")) =
      some (Json.str "detail") ∧
    rowKeys (flatten_product_variant [("url", Json.str "orig")] [] (some "detail")) =
      ["product_url", "variant_url"] :=
  ⟨by decide, by decide, rfl, rfl⟩

/-- C2 (amended): product-prefixed keys can never collide with
variant-prefixed keys, and when neither input record has a field named
`url` — the only field name colliding with the derived keys — the
flattened row's keys are exactly the prefixed product fields, the
prefixed variant fields and the two derived keys, all pairwise
distinct. -/
theorem flatten_product_variant_key_uniqueness :
    (∀ (p v : Dict) (kp kv : String),
      kp ∈ productOriginKeys p → kv ∈ variantOriginKeys v → kp ≠ kv) ∧
    (∀ (p v : Dict) (u : Option String),
      (p.map Prod.fst).Nodup → (v.map Prod.fst).Nodup →
      "url" ∉ p.map Prod.fst → "url" ∉ v.map Prod.fst →
      rowKeys (flatten_product_variant p v u)
        = productOriginKeys p ++ variantOriginKeys v ++ derivedKeys ∧
      (rowKeys (flatten_product_variant p v u)).Nodup) := by
  constructor
  · intro p v kp kv hkp hkv
    obtain ⟨a, _, rfl⟩ := List.mem_map.mp hkp
    obtain ⟨b, _, rfl⟩ := List.mem_map.mp hkv
    exact product_ne_variant_prefixes a.1 b.1
  · intro p v u hp hv hpu hvu
    have hflat : flatten_product_variant p v u =
        dictInsert (dictInsert
          (v.foldl (fun d kv => dictInsert d ("variant_" ++ kv.1) kv.2)
            (p.foldl
              (fun d kv => if kv.1 = "variants" then d
                else dictInsert d ("product_" ++ kv.1) kv.2) []))
          "product_url" (jsonOfOptStr u)) "variant_url"
          (match u with
            | some u' =>
              if u' != "" then
                Json.str (u' ++ "?variant=" ++ pyStr (dictGetD v "id" Json.null))
              else Json.null
            | none => Json.null) := rfl
    have h1 : rowKeys (p.foldl
        (fun d kv => if kv.1 = "variants" then d
          else dictInsert d ("product_" ++ kv.1) kv.2) []) = productOriginKeys p := by
      rw [foldl_product_keys p [] (fun kv _ _ => List.not_mem_nil _) hp]
      rfl
    have h2 : rowKeys (v.foldl (fun d kv => dictInsert d ("variant_" ++ kv.1) kv.2)
        (p.foldl (fun d kv => if kv.1 = "variants" then d
          else dictInsert d ("product_" ++ kv.1) kv.2) []))
        = productOriginKeys p ++ variantOriginKeys v := by
      rw [foldl_variant_keys v _ ?fresh hv, h1]
      case fresh =>
        intro kv _ hmem
        rw [h1] at hmem
        obtain ⟨a, _, ha⟩ := List.mem_map.mp hmem
        exact product_ne_variant_prefixes a.1 kv.1 ha
    have hpuA : "product_url" ∉ productOriginKeys p := by
      intro hmem
      obtain ⟨a, hamem, ha⟩ := List.mem_map.mp hmem
      have : a.1 = "url" := (product_url_eq_prefix_iff a.1).mp ha
      exact hpu (this ▸ List.mem_map_of_mem Prod.fst (List.mem_of_mem_filter hamem))
    have hpuB : "product_url" ∉ variantOriginKeys v := by
      intro hmem
      obtain ⟨a, _, ha⟩ := List.mem_map.mp hmem
      exact product_ne_variant_prefixes "url" a.1 ha.symm
    have hvuA : "variant_url" ∉ productOriginKeys p := by
      intro hmem
      obtain ⟨a, _, ha⟩ := List.mem_map.mp hmem
      exact product_ne_variant_prefixes a.1 "url" ha
    have hvuB : "variant_url" ∉ variantOriginKeys v := by
      intro hmem
      obtain ⟨a, hamem, ha⟩ := List.mem_map.mp hmem
      have : a.1 = "url" := (variant_url_eq_prefix_iff a.1).mp ha
      exact hvu (this ▸ List.mem_map_of_mem Prod.fst hamem)
    have hne2 : "product_url" ∉ rowKeys (v.foldl
        (fun d kv => dictInsert d ("variant_" ++ kv.1) kv.2)
        (p.foldl (fun d kv => if kv.1 = "variants" then d
          else dictInsert d ("product_" ++ kv.1) kv.2) [])) := by
      rw [h2]
      simp only [List.mem_append]
      push_neg
      exact ⟨hpuA, hpuB⟩
    have hne3 : "variant_url" ∉ rowKeys (v.foldl
        (fun d kv => dictInsert d ("variant_" ++ kv.1) kv.2)
        (p.foldl (fun d kv => if kv.1 = "variants" then d
          else dictInsert d ("product_" ++ kv.1) kv.2) [])
        ++ [("product_url", jsonOfOptStr u)]) := by
      rw [rowKeys_append_single, h2]
      simp only [List.mem_append, List.mem_singleton]
      push_neg
      exact ⟨⟨hvuA, hvuB⟩, by decide⟩
    have h3 : rowKeys (flatten_product_variant p v u)
        = productOriginKeys p ++ variantOriginKeys v ++ derivedKeys := by
      rw [hflat, dictInsert_of_not_mem _ "product_url" _ hne2,
        dictInsert_of_not_mem _ "variant_url" _ hne3, rowKeys_append_single,
        rowKeys_append_single, h2]
      simp [derivedKeys]
    refine ⟨h3, ?_⟩
    rw [h3]
    have hA : (productOriginKeys p).Nodup := by
      have hsub : ((p.filter (fun kv => kv.1 != "variants")).map Prod.fst).Nodup :=
        hp.sublist (List.Sublist.map Prod.fst (List.filter_sublist p))
      have : productOriginKeys p
          = ((p.filter (fun kv => kv.1 != "variants")).map Prod.fst).map
              (fun k => "product_" ++ k) := by
        simp [productOriginKeys, List.map_map]
      rw [this]
      exact hsub.map (fun a b h => (product_prefix_eq_iff a b).mp h)
    have hB : (variantOriginKeys v).Nodup := by
      have : variantOriginKeys v = (v.map Prod.fst).map (fun k => "variant_" ++ k) := by
        simp [variantOriginKeys, List.map_map]
      rw [this]
      exact hv.map (fun a b h => (variant_prefix_eq_iff a b).mp h)
    have hAB : (productOriginKeys p).Disjoint (variantOriginKeys v) := by
      intro a ha hb
      obtain ⟨x, _, hx⟩ := List.mem_map.mp ha
      obtain ⟨y, _, hy⟩ := List.mem_map.mp hb
      exact product_ne_variant_prefixes x.1 y.1 (hx.trans hy.symm)
    have hder : derivedKeys.Nodup := by decide
    have dABd : (productOriginKeys p ++ variantOriginKeys v).Disjoint derivedKeys := by
      intro a ha hd
      rcases (by simpa [derivedKeys] using hd : a = "product_url" ∨ a = "variant_url") with rfl | rfl
      · rcases List.mem_append.mp ha with hx | hx
        · exact hpuA hx
        · exact hpuB hx
      · rcases List.mem_append.mp ha with hx | hx
        · exact hvuA hx
        · exact hvuB hx
    exact (hA.append hB hAB).append hder dABd

/-- C2 witness: a concrete product/variant pair without `url` fields,
instantiating the amended key-uniqueness theorem. -/
theorem flatten_product_variant_key_uniqueness_witness :
    rowKeys (flatten_product_variant [("id", Json.null)] [("sku", Json.null)] none)
      = ["product_id", "variant_sku", "product_url", "variant_url"] ∧
    (rowKeys (flatten_product_variant [("id", Json.null)] [("sku", Json.null)] none)).Nodup := by
  have h := flatten_product_variant_key_uniqueness.2 [("id", Json.null)] [("sku", Json.null)]
    none (by decide) (by decide) (by decide) (by decide)
  exact ⟨by rw [h.1]; decide, h.2⟩

/-! Section: Claim C9 -/

/-- A row flattened with no detail URL stores Python `None` in both the
`product_url` and the derived `variant_url` slot. -/
theorem flatten_none_urls (p v : Dict) :
    dictLookup "product_url" (flatten_product_variant p v none) = some Json.null ∧
    dictLookup "variant_url" (flatten_product_variant p v none) = some Json.null := by
  have hflat : flatten_product_variant p v none =
      dictInsert (dictInsert
        (v.foldl (fun d kv => dictInsert d ("variant_" ++ kv.1) kv.2)
          (p.foldl (fun d kv => if kv.1 = "variants" then d
            else dictInsert d ("product_" ++ kv.1) kv.2) []))
        "product_url" Json.null) "variant_url" Json.null := rfl
  constructor
  · rw [hflat, dictLookup_dictInsert_ne _ _ _ _ (by decide), dictLookup_dictInsert_self]
  · rw [hflat, dictLookup_dictInsert_self]

/-- C9 (confirmed): when the extracted detail-URL list is shorter than the
product list, each product at an index at or beyond its length is paired by
`product_urls[i] if i < len(product_urls) else None` with `None` — no index
is ever read out of range — and every row flattened for such a product has
`product_url = None` and consequently `variant_url = None`. -/
theorem pairing_boundary_none (prods : List Dict) (urls : List String) (i : Nat) (p : Dict)
    (hp : prods[i]? = some p) (hlen : urls.length ≤ i) :
    urlAt urls i = none ∧
    ∀ row ∈ productRows p (urlAt urls i),
      dictLookup "product_url" row = some Json.null ∧
      dictLookup "variant_url" row = some Json.null := by
  have hu : urlAt urls i = none := by
    unfold urlAt
    rw [dif_neg (by omega)]
  refine ⟨hu, ?_⟩
  rw [hu]
  intro row hrow
  obtain ⟨vj, _, rfl⟩ := List.mem_map.mp hrow
  exact flatten_none_urls p (variantDict vj)

/-- A concrete product record for the C9 witness. -/
def pW : Dict := [("handle", Json.str "a"), ("variants", Json.arr [Json.obj [("sku", Json.str "s")]])]

/-- C9 witness: one product, an empty URL list, index 0. -/
theorem pairing_boundary_none_witness :
    urlAt ([] : List String) 0 = none ∧
    dictLookup "product_url"
      (flatten_product_variant pW (variantDict (Json.obj [("sku", Json.str "s")])) none) =
      some Json.null ∧
    dictLookup "variant_url"
      (flatten_product_variant pW (variantDict (Json.obj [("sku", Json.str "s")])) none) =
      some Json.null := by
  have h := pairing_boundary_none [pW] [] 0 pW rfl (by simp)
  have hm : flatten_product_variant pW (variantDict (Json.obj [("sku", Json.str "s")])) none ∈
      productRows pW (urlAt [] 0) := by
    rw [show productRows pW (urlAt [] 0) =
      [flatten_product_variant pW (variantDict (Json.obj [("sku", Json.str "s")])) none] from rfl]
    exact List.mem_singleton_self _
  exact ⟨h.1, (h.2 _ hm).1, (h.2 _ hm).2⟩

/-! Section: Claim C6 -/

/-- A harvested row whose SKU cell holds the empty string (present, hence
not NaN) while the name is present. -/
def emptySkuRow : CheckRow := ⟨some "Widget A", some ""⟩

/-- C6 counterexample: the code tests only `pd.notna`, not non-emptiness —
with an empty-string SKU and name `"Widget A"` it builds the search URL
from the empty SKU (`...?q=`) instead of falling back to the name as the
claim states. -/
theorem make_search_url_empty_sku_cex :
    make_search_url emptySkuRow = some base_search_url ∧
    make_search_url emptySkuRow ≠ some (base_search_url ++ "Widget%20A") := by
  exact ⟨rfl, by decide⟩

/-- C6 (amended): the query is the SKU whenever the SKU cell is present
(not NaN) — even when it is the empty string — and otherwise the name; it
is percent-encoded onto the search endpoint; when both cells are missing no
URL is produced. -/
theorem make_search_url_spec (row : CheckRow) :
    (∀ s, row.variant_sku = some s →
      make_search_url row = some (base_search_url ++ pyQuote s)) ∧
    (row.variant_sku = none → ∀ nm, row.variant_name = some nm →
      make_search_url row = some (base_search_url ++ pyQuote nm)) ∧
    (row.variant_sku = none → row.variant_name = none → make_search_url row = none) := by
  refine ⟨?_, ?_, ?_⟩
  · intro s hs
    simp [make_search_url, hs]
  · intro hs nm hn
    simp [make_search_url, hs, hn]
  · intro hs hn
    simp [make_search_url, hs, hn]

/-- C6 witness: SKU `"ABC-1"` encodes to itself; a missing SKU with name
`"Widget A"` falls back to the URL-encoded name; both missing gives none. -/
theorem make_search_url_spec_witness :
    make_search_url ⟨none, some "ABC-1"⟩ = some (base_search_url ++ pyQuote "ABC-1") ∧
    pyQuote "ABC-1" = "ABC-1" ∧
    make_search_url ⟨some "Widget A", none⟩ = some (base_search_url ++ pyQuote "Widget A") ∧
    pyQuote "Widget A" = "Widget%20A" ∧
    make_search_url ⟨none, none⟩ = none :=
  ⟨(make_search_url_spec ⟨none, some "ABC-1"⟩).1 "ABC-1" rfl, rfl,
   (make_search_url_spec ⟨some "Widget A", none⟩).2.1 rfl "Widget A" rfl, rfl,
   (make_search_url_spec ⟨none, none⟩).2.2 rfl rfl⟩

/-! Section: Claim C7 -/

/-- When every attempt in the window raises an `Exception`, the retry loop
runs through all remaining attempts and ends in `Retry Failed`. -/
theorem extractAux_all_raise (attempts : Nat → AttemptOutcome) :
    ∀ (rem used : Nat), (∀ i, used ≤ i → i < used + rem → attempts i = AttemptOutcome.raise) →
    extractAux attempts used rem = (Except.ok (none, "Retry Failed"), used + rem) := by
  intro rem
  induction rem with
  | zero =>
    intro used _
    simp [extractAux]
  | succ rem' ih =>
    intro used h
    have h0 : attempts used = AttemptOutcome.raise := h used le_rfl (by omega)
    simp only [extractAux, h0]
    rw [ih (used + 1) (fun i h1 h2 => h i (by omega) (by omega))]
    congr 1
    omega

/-- When no attempt produces a non-`Exception` error, the retry loop always
returns normally (with some result and attempt count). -/
theorem extractAux_no_fatal (attempts : Nat → AttemptOutcome)
    (h : ∀ i, attempts i ≠ AttemptOutcome.fatal) :
    ∀ (rem used : Nat), ∃ pr n, extractAux attempts used rem = (Except.ok pr, n) := by
  intro rem
  induction rem with
  | zero =>
    intro used
    exact ⟨(none, "Retry Failed"), used, rfl⟩
  | succ rem' ih =>
    intro used
    cases hA : attempts used with
    | fatal => exact absurd hA (h used)
    | raise =>
      obtain ⟨pr, n, hn⟩ := ih (used + 1)
      exact ⟨pr, n, by simp only [extractAux, hA]; exact hn⟩
    | found c v =>
      exact ⟨(normalizeView v, stock_status_of c), used + 1, by simp [extractAux, hA]⟩

/-- When no attempt of any row produces a non-`Exception` error, the row
loop of the checker completes normally on every input. -/
theorem checkLoop_ok_of_no_fatal (oracle : Nat → Nat → AttemptOutcome) (rows : List CheckRow) :
    ∀ (k : Nat), (∀ i j, oracle i j ≠ AttemptOutcome.fatal) →
    ∃ outs tr, checkLoop oracle k rows = (Except.ok outs, tr) := by
  induction rows with
  | nil =>
    intro k _
    exact ⟨[], [], rfl⟩
  | cons row rest ih =>
    intro k hnf
    have hnf' : ∀ i, navOutcome oracle k (make_search_url row) i ≠ AttemptOutcome.fatal := by
      intro i
      cases hu : make_search_url row with
      | none => simp [navOutcome]
      | some u =>
        simp only [navOutcome]
        exact hnf k i
    obtain ⟨pr, n, hex⟩ := extractAux_no_fatal _ hnf' 5 0
    have hex' : extract_first_product_info (navOutcome oracle k (make_search_url row)) 5 =
        (Except.ok pr, n) := hex
    obtain ⟨outs, tr, hrec⟩ := ih (k + 1) hnf
    refine ⟨⟨row, make_search_url row, pr.1, pr.2⟩ :: outs,
      List.replicate n (Ev.navigate (make_search_url row)) ++ tr, ?_⟩
    simp only [checkLoop, hex', hrec]

/-- C7 (confirmed): a row whose navigation raises an `Exception` on all
attempts consumes exactly 5 attempts of `extract_first_product_info`, which
then returns normally with `product_page_url = None` and
`stock_status = "Retry Failed"` — the exception is not propagated — and a
checker run whose attempts never produce a non-`Exception` error completes
with a result for its rows rather than aborting. -/
theorem retry_exhaustion (attempts : Nat → AttemptOutcome)
    (h : ∀ i, i < 5 → attempts i = AttemptOutcome.raise) :
    extract_first_product_info attempts 5 = (Except.ok (none, "Retry Failed"), 5) ∧
    (∀ (oracle : Nat → Nat → AttemptOutcome) (rows : List CheckRow),
      (∀ i j, oracle i j ≠ AttemptOutcome.fatal) →
      ∃ outs tr, scrape_search_results true oracle rows = (Except.ok (some outs), tr)) := by
  constructor
  · have hz := extractAux_all_raise attempts 5 0 (fun i _ h2 => h i (by omega))
    simpa [extract_first_product_info] using hz
  · intro oracle rows hnf
    obtain ⟨outs, tr, hloop⟩ := checkLoop_ok_of_no_fatal oracle rows 0 hnf
    exact ⟨outs, Ev.acquire :: (tr ++ [Ev.release]), by simp [scrape_search_results, hloop]⟩

/-- C7 witness: the constant-raise behaviour. -/
theorem retry_exhaustion_witness :
    extract_first_product_info (fun _ => AttemptOutcome.raise) 5 =
      (Except.ok (none, "Retry Failed"), 5) :=
  (retry_exhaustion (fun _ => AttemptOutcome.raise) (fun _ _ => rfl)).1

/-! Section: Claim C4 -/

/-- An oracle whose every attempt dies with a `BaseException` such as
`KeyboardInterrupt` (not caught by `except Exception`). -/
def fatalOracle : Nat → Nat → AttemptOutcome := fun _ _ => AttemptOutcome.fatal

/-- An oracle whose every attempt raises an ordinary `Exception`. -/
def raiseOracle : Nat → Nat → AttemptOutcome := fun _ _ => AttemptOutcome.raise

/-- A normal input row for the checker traces. -/
def skuRow : CheckRow := ⟨some "Name", some "ABC-1"⟩

/-- C4 counterexample: `scrape_search_results` has no `try/finally`; when a
non-`Exception` error escapes the loop mid-run the driver has been acquired
but `driver.quit()` is never reached — the session leaks. -/
theorem driver_leak_cex :
    Ev.acquire ∈ (scrape_search_results true fatalOracle [skuRow]).2 ∧
    Ev.release ∉ (scrape_search_results true fatalOracle [skuRow]).2 := by
  decide

/-- C4 (amended): the browser session is released on the normal exit path —
whenever no attempt produces an error outside the `Exception` hierarchy,
every acquisition is followed by a release — but an unexpected
non-`Exception` error mid-loop skips the release (see the counterexample):
the release is not guaranteed on all exit paths. -/
theorem driver_released_when_no_fatal (fe : Bool) (oracle : Nat → Nat → AttemptOutcome)
    (rows : List CheckRow) (hnf : ∀ i j, oracle i j ≠ AttemptOutcome.fatal) :
    Ev.acquire ∈ (scrape_search_results fe oracle rows).2 →
    Ev.release ∈ (scrape_search_results fe oracle rows).2 := by
  intro hacq
  cases fe with
  | false => simp [scrape_search_results] at hacq
  | true =>
    obtain ⟨outs, tr, hloop⟩ := checkLoop_ok_of_no_fatal oracle rows 0 hnf
    simp [scrape_search_results, hloop]

/-- C4 witness: a run whose rows all time out (ordinary exceptions only)
still releases the driver. -/
theorem driver_released_when_no_fatal_witness :
    Ev.release ∈ (scrape_search_results true raiseOracle [skuRow]).2 :=
  driver_released_when_no_fatal true raiseOracle [skuRow]
    (fun _ _ => by simp [raiseOracle]) (by decide)

/-! Section: Claim C3 -/

/-- In the checker loop, a row with NaN SKU and NaN name gets search URL
`None`, is still fed to `extract_first_product_info`, whose every
`driver.get(None)` raises, and so ends `Retry Failed` with no product URL. -/
theorem checkLoop_missing_ids (oracle : Nat → Nat → AttemptOutcome) (rows : List CheckRow) :
    ∀ (k i : Nat) (row : CheckRow) (outs : List OutRow) (tr : List Ev),
    checkLoop oracle k rows = (Except.ok outs, tr) →
    rows[i]? = some row → row.variant_sku = none → row.variant_name = none →
    outs[i]? = some ⟨row, none, none, "Retry Failed"⟩ := by
  induction rows with
  | nil =>
    intro k i row outs tr _ hrow _ _
    simp at hrow
  | cons r rest ih =>
    intro k i row outs tr hloop hrow hsku hname
    cases i with
    | zero =>
      have hr : r = row := by simpa using hrow
      subst hr
      have hurl : make_search_url r = none := by
        simp [make_search_url, hsku, hname]
      have hex : extract_first_product_info (navOutcome oracle k (make_search_url r)) 5 =
          (Except.ok (none, "Retry Failed"), 5) := by
        rw [hurl]
        exact extractAux_all_raise _ 5 0 (fun _ _ _ => rfl)
      rcases hrec : checkLoop oracle (k + 1) rest with ⟨res', tr'⟩
      cases res' with
      | error e =>
        simp only [checkLoop, hex, hrec] at hloop
        simp at hloop
      | ok outs' =>
        simp only [checkLoop, hex, hrec] at hloop
        rw [Prod.mk.injEq] at hloop
        have houts : (⟨r, none, none, "Retry Failed"⟩ : OutRow) :: outs' = outs := by
          have h1 := hloop.1
          rw [hurl] at h1
          simpa using h1
        rw [← houts]
        simp
    | succ i' =>
      rcases hex : extract_first_product_info (navOutcome oracle k (make_search_url r)) 5
        with ⟨res, n⟩
      cases res with
      | error e =>
        simp only [checkLoop, hex] at hloop
        simp at hloop
      | ok pr =>
        rcases hrec : checkLoop oracle (k + 1) rest with ⟨res', tr'⟩
        cases res' with
        | error e =>
          simp only [checkLoop, hex, hrec] at hloop
          simp at hloop
        | ok outs' =>
          simp only [checkLoop, hex, hrec] at hloop
          rw [Prod.mk.injEq] at hloop
          have houts : (⟨r, make_search_url r, pr.1, pr.2⟩ : OutRow) :: outs' = outs := by
            simpa using hloop.1
          have hrow' : rest[i']? = some row := by simpa using hrow
          rw [← houts]
          simpa using ih (k + 1) i' row outs' tr' hrec hrow' hsku hname

/-- C3 (amended): a row with neither SKU nor name gets no search URL —
but its status resolution is not skipped: the row is still driven through
the browser navigation/retry path with a `None` URL, every `driver.get`
raises, and the row terminates as `"Retry Failed"`, not `"Unknown"`. -/
theorem missing_sku_name_row_status (oracle : Nat → Nat → AttemptOutcome)
    (rows : List CheckRow) (i : Nat) (row : CheckRow) (outs : List OutRow) (tr : List Ev)
    (hrun : scrape_search_results true oracle rows = (Except.ok (some outs), tr))
    (hrow : rows[i]? = some row)
    (hsku : row.variant_sku = none) (hname : row.variant_name = none) :
    outs[i]? = some ⟨row, none, none, "Retry Failed"⟩ := by
  rcases hloop : checkLoop oracle 0 rows with ⟨res, tr'⟩
  cases res with
  | error e =>
    simp [scrape_search_results, hloop] at hrun
  | ok outs' =>
    simp only [scrape_search_results, if_pos, hloop] at hrun
    rw [Prod.mk.injEq] at hrun
    have houts : outs' = outs := by
      simpa using hrun.1
    exact houts ▸ checkLoop_missing_ids oracle rows 0 i row outs' tr' hloop hrow hsku hname

/-- A row with NaN SKU and NaN name. -/
def noIdRow : CheckRow := ⟨none, none⟩

/-- An oracle that would classify any actually-reached result as in
stock — irrelevant for a `None` URL, whose navigation always raises. -/
def inStockOracle : Nat → Nat → AttemptOutcome :=
  fun _ _ => AttemptOutcome.found "snize-product snize-product-in-stock" (some (some "/products/x"))

/-- C3 counterexample: with both SKU and name absent the row is not skipped
and does not end `"Unknown"` — the run navigates (five times) with URL
`None` and the row ends `"Retry Failed"`. -/
theorem missing_sku_name_cex :
    (scrape_search_results true inStockOracle [noIdRow]).1 =
      Except.ok (some [⟨noIdRow, none, none, "Retry Failed"⟩]) ∧
    Ev.navigate none ∈ (scrape_search_results true inStockOracle [noIdRow]).2 ∧
    "Retry Failed" ≠ "Unknown" := by
  refine ⟨rfl, by decide, by decide⟩

/-- C3 witness: one no-SKU/no-name row under an always-raising oracle. -/
theorem missing_sku_name_row_status_witness :
    ([⟨noIdRow, none, none, "Retry Failed"⟩] : List OutRow)[0]? =
      some ⟨noIdRow, none, none, "Retry Failed"⟩ :=
  missing_sku_name_row_status raiseOracle [noIdRow] 0 noIdRow
    [⟨noIdRow, none, none, "Retry Failed"⟩]
    [Ev.acquire, Ev.navigate none, Ev.navigate none, Ev.navigate none, Ev.navigate none,
     Ev.navigate none, Ev.release]
    rfl rfl rfl rfl

/-! Section: Claim C10 -/

/-- C10 (amended): the extractor returns the empty list when the meta
pattern is absent, or when the parse succeeds and the `products` entry is
absent **or is itself the empty list**; when the pattern matches but the
captured text is not valid JSON the parse error is raised, and the harvest
loop does not catch it — the error propagates out of the loop of
`scrape_variants`. -/
theorem extract_variants_characterization (html : String) :
    (∀ s, findMetaS html = some s → json_loads s = none →
      extract_variants_from_script html = Except.error "JSONDecodeError") ∧
    (findMetaS html = none → extract_variants_from_script html = Except.ok (Json.arr [])) ∧
    (extract_variants_from_script html = Except.ok (Json.arr []) →
      findMetaS html = none ∨ ∃ s meta, findMetaS html = some s ∧ json_loads s = some meta ∧
        jsonGetD meta "products" (Json.arr []) = Json.arr []) ∧
    (∀ (fetch : Nat → FetchRes) (fuel page : Nat) (acc : List Dict) (e : String),
      (fetch page).status = 200 → (fetch page).text = html →
      extract_variants_from_script html = Except.error e →
      scrapeLoop fetch (fuel + 1) page acc = some (Except.error e)) := by
  refine ⟨?_, ?_, ?_, ?_⟩
  · intro s hs hj
    simp [extract_variants_from_script, hs, hj]
  · intro h
    simp [extract_variants_from_script, h]
  · intro h
    cases hs : findMetaS html with
    | none => exact Or.inl rfl
    | some s =>
      cases hj : json_loads s with
      | none => simp [extract_variants_from_script, hs, hj] at h
      | some meta =>
        refine Or.inr ⟨s, meta, rfl, hj, ?_⟩
        simpa [extract_variants_from_script, hs, hj] using h
  · intro fetch fuel page acc e h200 htext herr
    simp [scrapeLoop, h200, htext, herr]

/-- A page whose meta blob parses to an object whose `products` entry is
the empty list. -/
def emptyProductsHtml : String := "var meta = \x7b\"products\": []\x7d; for (var attr in meta)"

/-- C10 counterexample: on `emptyProductsHtml` the pattern matches and the
parsed JSON *does* have a `products` key — yet the function still returns
the empty list, because the entry itself is empty; so "empty only when the
pattern is absent or the key is missing" is false. -/
theorem extract_variants_empty_products_cex :
    extract_variants_from_script emptyProductsHtml = Except.ok (Json.arr []) ∧
    findMetaS emptyProductsHtml = some "\x7b\"products\": []\x7d" ∧
    json_loads "\x7b\"products\": []\x7d" = some (Json.obj [("products", Json.arr [])]) :=
  ⟨rfl, rfl, rfl⟩

/-- A page whose meta blob is captured but is not valid JSON. -/
def badJsonHtml : String := "var meta = \x7bbad\x7d; for (var attr in meta)"

/-- C10 witness: the invalid-JSON page makes the extractor raise. -/
theorem extract_variants_characterization_witness :
    extract_variants_from_script badJsonHtml = Except.error "JSONDecodeError" :=
  (extract_variants_characterization badJsonHtml).1 "\x7bbad\x7d" rfl rfl

/-! Section: Claim C1 -/

/-- When pages `page..page+n-1` are good and page `page+n` answers with a
non-200 status, the harvest loop stops at that page and hands back the
rows collected so far — it does not discard them. -/
theorem scrapeLoop_stops_at_bad_page (fetch : Nat → FetchRes) :
    ∀ (n fuel page : Nat) (acc : List Dict),
    (∀ j, j < n → (pageOk fetch (page + j)).isSome) →
    (fetch (page + n)).status ≠ 200 →
    n < fuel →
    scrapeLoop fetch fuel page acc = some (Except.ok (acc ++ rowsFrom fetch page n)) := by
  intro n
  induction n with
  | zero =>
    intro fuel page acc _ hbad hfuel
    obtain ⟨f, rfl⟩ : ∃ f, fuel = f + 1 := ⟨fuel - 1, by omega⟩
    rw [Nat.add_zero] at hbad
    simp only [scrapeLoop]
    rw [if_pos hbad]
    simp [rowsFrom]
  | succ n' ih =>
    intro fuel page acc hgood hbad hfuel
    obtain ⟨f, rfl⟩ : ∃ f, fuel = f + 1 := ⟨fuel - 1, by omega⟩
    have h0 := hgood 0 (by omega)
    rw [Nat.add_zero] at h0
    by_cases hst : (fetch page).status ≠ 200
    · simp [pageOk, hst] at h0
    cases hE : extract_variants_from_script (fetch page).text with
    | error e => simp [pageOk, hst, hE] at h0
    | ok products =>
      by_cases hf : pythonFalsy products = true
      · simp [pageOk, hst, hE, hf] at h0
      cases hD : productsAsDicts products with
      | error e => simp [pageOk, hst, hE, hf, hD] at h0
      | ok prods =>
        have hpo : pageOk fetch page =
            some (prods, extract_product_urls_from_collection_page (fetch page).text) := by
          simp [pageOk, hst, hE, hf, hD]
        have hrows : rowsFrom fetch page (n' + 1) =
            pageRows prods (extract_product_urls_from_collection_page (fetch page).text)
              ++ rowsFrom fetch (page + 1) n' := by
          simp only [rowsFrom, hpo]
        have hgood' : ∀ j, j < n' → (pageOk fetch (page + 1 + j)).isSome := by
          intro j hj
          have hg := hgood (j + 1) (by omega)
          rwa [show page + (j + 1) = page + 1 + j from by omega] at hg
        have hbad' : (fetch (page + 1 + n')).status ≠ 200 := by
          rwa [show page + 1 + n' = page + (n' + 1) from by omega]
        rw [hrows]
        simp only [scrapeLoop]
        rw [if_neg hst, hE]
        dsimp only
        rw [if_neg hf, hD]
        dsimp only
        rw [ih f (page + 1) _ hgood' hbad' (by omega), List.append_assoc]

/-- C1 (amended): a non-success HTTP status stops the harvest loop at that
page, but `scrape_variants` does not return early: it falls through to the
write step with all rows collected from the earlier pages — a partial
spreadsheet is produced whenever those rows carry the needed columns
(and the write step raises a `KeyError` when no rows were collected,
rather than silently writing nothing). -/
theorem scrape_variants_fetch_error_still_writes (fetch : Nat → FetchRes) (fuel n : Nat)
    (hgood : ∀ j, j < n → (pageOk fetch (1 + j)).isSome)
    (hbad : (fetch (1 + n)).status ≠ 200)
    (hfuel : n < fuel) :
    scrape_variants fetch fuel = some (writeStep (rowsFrom fetch 1 n)) := by
  unfold scrape_variants
  rw [scrapeLoop_stops_at_bad_page fetch n fuel 1 [] hgood hbad hfuel]
  rfl

/-- C1 counterexample: page 1 yields one variant row, page 2 answers 500 —
a non-success status during harvesting — yet `scrape_variants` still writes
a spreadsheet containing the page-1 row: the harvest is not aborted without
output and the collected rows are not discarded. -/
theorem scrape_variants_partial_write_cex :
    (failPage2Fetch 2).status ≠ 200 ∧
    scrape_variants failPage2Fetch 2 =
      some (Except.ok ⟨keepColumns,
        [[Json.str "V", Json.str "S", Json.num (1999 / 100), Json.str "T"]]⟩) := by
  constructor
  · decide
  · with_unfolding_all rfl

/-- A server that is down from the first page on. -/
def down500Fetch : Nat → FetchRes := fun _ => ⟨500, ""⟩

/-- C1 witness: the failure path still reaches the write step (here with
zero collected rows). -/
theorem scrape_variants_fetch_error_still_writes_witness :
    scrape_variants down500Fetch 1 = some (writeStep []) :=
  scrape_variants_fetch_error_still_writes down500Fetch 1 0
    (fun j hj => absurd hj (by omega)) (by decide) (by omega)

/-! Section: Claim C5 -/

/-- C5 (code bug): when the very first page yields zero parsed products the
loop does terminate through its normal "no more products" break with zero
rows — but the write step then raises a `KeyError` (the empty frame has no
columns to select), so no spreadsheet with the four output columns is
written: the function raises instead of producing an empty sheet. -/
theorem empty_first_page_raises :
    scrapeLoop emptyCatalogFetch 1 1 [] = some (Except.ok []) ∧
    scrape_variants emptyCatalogFetch 1 = some (Except.error "KeyError") :=
  ⟨rfl, rfl⟩

/-! Section: Claim C8 -/

/-- A successful lookup witnesses the key. -/
theorem dictLookup_some_mem (d : Dict) (k : String) (v : Json)
    (h : dictLookup k d = some v) : k ∈ rowKeys d := by
  induction d with
  | nil => simp [dictLookup] at h
  | cons kv rest ih =>
    by_cases he : kv.1 = k
    · simp [rowKeys, List.mem_cons]
      exact Or.inl he.symm
    · simp only [dictLookup, if_neg he] at h
      simp only [rowKeys, List.map_cons, List.mem_cons]
      exact Or.inr (by simpa [rowKeys] using ih h)

/-- Keys appearing in any row appear among the frame's columns. -/
theorem mem_dfColumns (rows : List Dict) : ∀ (cs : List String) (k : String),
    (k ∈ cs ∨ ∃ row ∈ rows, k ∈ rowKeys row) →
    k ∈ rows.foldl (fun cs r => cs ++ (r.map Prod.fst).filter (fun x => !cs.contains x)) cs := by
  induction rows with
  | nil =>
    intro cs k h
    rcases h with h | ⟨row, hmem, _⟩
    · exact h
    · simp at hmem
  | cons r rest ih =>
    intro cs k h
    simp only [List.foldl_cons]
    apply ih
    rcases h with h | ⟨row, hmem, hk⟩
    · exact Or.inl (List.mem_append_left _ h)
    · rcases List.mem_cons.mp hmem with heq | hmem'
      · subst heq
        by_cases hc : k ∈ cs
        · exact Or.inl (List.mem_append_left _ hc)
        · refine Or.inl (List.mem_append_right _ ?_)
          rw [List.mem_filter]
          refine ⟨hk, ?_⟩
          simp [List.contains, List.elem_iff, hc]
      · exact Or.inr ⟨row, hmem', hk⟩

/-- Wrapper of `mem_dfColumns` at the empty initial column list. -/
theorem mem_dfColumns_of_mem (rows : List Dict) (row : Dict) (k : String)
    (hrow : row ∈ rows) (hk : k ∈ rowKeys row) : k ∈ dfColumns rows :=
  mem_dfColumns rows [] k (Or.inr ⟨row, hrow, hk⟩)

/-- C8 (confirmed): for every harvested row whose `variant_price` is the
integer (minor-units) value `q`, the written sheet carries, in the
`variant_price_usd` column (position 2 of the four kept columns), exactly
the rational `q / 100` — pandas `/` is true division, not integer
truncation. -/
theorem variant_price_usd_exact (rows : List Dict) (sheet : Sheet) (i : Nat) (row : Dict)
    (q : ℚ)
    (hok : writeStep rows = Except.ok sheet)
    (hrow : rows[i]? = some row)
    (hprice : dictLookup "variant_price" row = some (Json.num q)) :
    ∃ out, sheet.rows[i]? = some out ∧ out[2]? = some (Json.num (q / 100)) := by
  have hcol : "variant_price" ∈ dfColumns rows :=
    mem_dfColumns_of_mem rows row "variant_price" (List.getElem?_mem hrow)
      (dictLookup_some_mem row "variant_price" (Json.num q) hprice)
  have hcl : (dfColumns rows).contains "variant_price" = true := by
    simp [List.contains, List.elem_iff]
    exact hcol
  unfold writeStep at hok
  rw [if_pos hcl] at hok
  by_cases hall : rows.all priceTypeOk = true
  case neg =>
    rw [if_neg hall] at hok
    exact absurd hok (by simp)
  rw [if_pos hall] at hok
  by_cases hkeep : keepColumns.all (fun c => (dfColumns (rows.map addUsd)).contains c) = true
  case neg =>
    rw [if_neg hkeep] at hok
    exact absurd hok (by simp)
  rw [if_pos hkeep] at hok
  have hsheet : sheet = ⟨keepColumns,
      (rows.map addUsd).map (fun r => keepColumns.map (fun c => dictGetD r c Json.null))⟩ := by
    injection hok with h
    exact h.symm
  subst hsheet
  refine ⟨keepColumns.map (fun c => dictGetD (addUsd row) c Json.null), ?_, ?_⟩
  · rw [List.getElem?_map, List.getElem?_map, hrow]
    rfl
  · rw [show (keepColumns.map (fun c => dictGetD (addUsd row) c Json.null))[2]? =
        some (dictGetD (addUsd row) "variant_price_usd" Json.null) from by
      rw [List.getElem?_map]
      rfl]
    unfold addUsd
    rw [hprice]
    unfold dictGetD
    rw [dictLookup_dictInsert_self]

/-- The row of the C8 witness. -/
def priceRow : Dict :=
  [("variant_name", Json.str "N"), ("variant_sku", Json.str "S"),
   ("variant_price", Json.num 1999), ("variant_public_title", Json.str "T")]

/-- The sheet written for `priceRow`. -/
def priceSheet : Sheet :=
  ⟨keepColumns, [[Json.str "N", Json.str "S", Json.num (1999 / 100), Json.str "T"]]⟩

/-- C8 witness: price 1999 minor units persists as exactly 19.99. -/
theorem variant_price_usd_exact_witness :
    (∃ out, priceSheet.rows[0]? = some out ∧ out[2]? = some (Json.num (1999 / 100))) ∧
    (1999 : ℚ) / 100 = 19.99 := by
  constructor
  · exact variant_price_usd_exact [priceRow] priceSheet 0 priceRow 1999
      (by with_unfolding_all rfl) rfl rfl
  · norm_num
